import Mathlib

/-!
Verification development for the Solvirx token-tracker source (main.py).

The Python source is shallowly embedded: dictionaries become structures with
Option-valued fields (none = key absent; a JSON null value is collapsed with
an absent key wherever the source reads it through .get with a default, which
treats the two identically), stateful functions become explicit state
transformers, and the network is abstracted as an outcome parameter supplied
to each fetch function.  Epoch-millisecond clocks are Nat.
-/

namespace Solvirx

/-- The ASCII whitespace characters matched by a Python regex class backslash-s
(unicode whitespace beyond ASCII is not modelled; all inputs of interest are
ASCII). -/
def isPySpace (c : Char) : Bool :=
  c = ' ' || c = '\t' || c = '\n' || c = '\r' || c = '\x0b' || c = '\x0c'

/-- Characters allowed inside the captured handle segment of the twitter URL
regex: anything except a slash, a question mark, or whitespace. -/
def isSegChar (c : Char) : Bool :=
  !(c = '/' || c = '?' || isPySpace c)

/-- Python str.lower restricted to ASCII (every value of interest is
ASCII). -/
def pyLower (s : String) : String :=
  String.mk (s.toList.map Char.toLower)

/-- Python substring containment (the `in` operator on str), on char lists. -/
def listContains (hay needle : List Char) : Bool :=
  match hay with
  | [] => needle.isEmpty
  | _ :: t => needle.isPrefixOf hay || listContains t needle

/-- Python substring containment `needle in hay` for strings. -/
def strContains (hay needle : String) : Bool :=
  listContains hay.toList needle.toList

/-- Drops a literal from the front of a char list when it is a prefix. -/
def dropLit (lit cs : List Char) : Option (List Char) :=
  if lit.isPrefixOf cs then some (cs.drop lit.length) else none

/-!
Embedding of the regex used by normalize_twitter_handle, namely

  (?:https?://)?(?:www[.])?(?:twitter[.]com|x[.]com)/(?:#!/)?@?([^/?\x5cs]+)

applied with re.search semantics: the leftmost start position at which the
pattern matches wins, and at a given position each optional piece is tried
greedily first, backtracking to the skipped alternative on failure.
-/

/-- The capture group of the twitter URL pattern: one or more segment
characters, taken greedily.  Fails on an empty run. -/
def twTryCap (r : List Char) : Option (List Char) :=
  let seg := r.takeWhile isSegChar
  if seg.isEmpty then none else some seg

/-- The optional at-sign before the capture group, consumed greedily first
and backtracked on failure of the capture. -/
def twTryAt (r : List Char) : Option (List Char) :=
  match dropLit ['@'] r with
  | some r2 => (twTryCap r2).orElse (fun _ => twTryCap r)
  | none => twTryCap r

/-- Matches the tail of the twitter URL pattern after "host/": the optional
"#!/" segment, the optional at-sign, then the capture group, in the
backtracking order of the regex engine (each optional literal consumed
greedily first). -/
def twTail (cs : List Char) : Option (List Char) :=
  match dropLit ['#', '!', '/'] cs with
  | some r2 => (twTryAt r2).orElse (fun _ => twTryAt cs)
  | none => twTryAt cs

/-- Tries to match the full twitter URL pattern at the start of the list,
returning the captured handle group.  The protocol, the "www." prefix and the
host alternation are matched with the backtracking preference order of the
regex. -/
def twMatchAt (cs : List Char) : Option (List Char) :=
  let host : List Char → Option (List Char) := fun r =>
    match dropLit "twitter.com/".toList r with
    | some r2 => twTail r2
    | none =>
      match dropLit "x.com/".toList r with
      | some r2 => twTail r2
      | none => none
  let www : List Char → Option (List Char) := fun r =>
    match dropLit "www.".toList r with
    | some r2 => (host r2).orElse (fun _ => host r)
    | none => host r
  match dropLit "https://".toList cs with
  | some r2 => (www r2).orElse (fun _ => www cs)
  | none =>
    match dropLit "http://".toList cs with
    | some r2 => (www r2).orElse (fun _ => www cs)
    | none => www cs

/-- re.search over the twitter URL pattern: scans start positions left to
right and returns the first captured group. -/
def twSearch : List Char → Option (List Char)
  | [] => none
  | cs@(_ :: t) =>
    match twMatchAt cs with
    | some g => some g
    | none => twSearch t

/-- Embeds normalize_twitter_handle: lowercase, extract the handle from a
full profile URL when the regex finds one (the captured group is nonempty by
construction, matching the "match.group(1)" truthiness test), then strip one
leading at-sign. -/
def normalize_twitter_handle (handle : String) : String :=
  if handle = "" then ""
  else
    let n := pyLower handle
    let n := match twSearch n.toList with
      | some g => String.mk g
      | none => n
    match n.toList with
    | '@' :: t => String.mk t
    | _ => n

/-- Embeds normalize_url: lowercase, strip one optional protocol prefix and
one optional "www." prefix (the anchored regex substitution), then strip all
trailing slashes.  The except branch of the source is unreachable for a pure
substitution and is not modelled. -/
def normalize_url (url : String) : String :=
  if url = "" then ""
  else
    let u := pyLower url
    let cs := u.toList
    let cs := match dropLit "https://".toList cs with
      | some r => r
      | none =>
        match dropLit "http://".toList cs with
        | some r => r
        | none => cs
    let cs := match dropLit "www.".toList cs with
      | some r => r
      | none => cs
    String.mk (cs.reverse.dropWhile (fun c => c = '/')).reverse

/-- A stored watchlist filter: an id, a kind tag and a raw value. -/
structure WatchlistFilter where
  id : String
  type : String
  value : String
deriving DecidableEq, Repr

/-- Python int() applied to a string: strip surrounding whitespace, allow one
optional sign, then require a nonempty digit run.  (Underscore digit
separators accepted by Python are not modelled; no filter value of interest
contains them.) -/
def pyParseInt (s : String) : Option Int :=
  let cs := (s.toList.dropWhile isPySpace).reverse.dropWhile isPySpace |>.reverse
  let (neg, ds) : Bool × List Char :=
    match cs with
    | '-' :: t => (true, t)
    | '+' :: t => (false, t)
    | t => (false, t)
  if ds.isEmpty || !ds.all Char.isDigit then none
  else
    let n := ds.foldl (fun acc c => acc * 10 + (c.toNat - '0'.toNat)) 0
    some (if neg then -(n : Int) else (n : Int))

/-- Embeds are_filters_equal: kinds must agree, then the value comparison is
kind specific (twitter and website normalize first, token and wallet compare
lowercased, believe compares as integers when both sides parse and falls back
to raw string equality when either side raises ValueError). -/
def are_filters_equal (f1 f2 : WatchlistFilter) : Bool :=
  if f1.type ≠ f2.type then false
  else if f1.type = "twitter" then
    normalize_twitter_handle f1.value == normalize_twitter_handle f2.value
  else if f1.type = "website" then
    normalize_url f1.value == normalize_url f2.value
  else if f1.type = "token" || f1.type = "wallet" then
    pyLower f1.value == pyLower f2.value
  else if f1.type = "believe" then
    match pyParseInt f1.value, pyParseInt f2.value with
    | some a, some b => a == b
    | _, _ => f1.value == f2.value
  else f1.value == f2.value

/-!  The token record.  A token in the source is a plain dict; fields are
Option-valued (none = key absent).  Pass-through display fields that no
control flow reads (image, description, marketCap, price, volume, createdAt,
created_at, original_data) are summarised by the extraKeys flag, which only
feeds the dict-truthiness test below. -/

/-- A token dict.  extraKeys records whether the dict carries keys beyond the
modelled ones (true for every token built by either fetcher). -/
structure Token where
  address : Option String := none
  name : Option String := none
  symbol : Option String := none
  deployer : Option String := none
  creator : Option String := none
  website : Option String := none
  twitter : Option String := none
  twitterUsername : Option String := none
  source : Option String := none
  twitterFollowers : Option Nat := none
  twitterVerified : Option Bool := none
  extraKeys : Bool := false
deriving DecidableEq, Repr

/-- Python dict truthiness for a token: an empty dict is falsy. -/
def tokenIsEmpty (t : Token) : Bool :=
  t.address.isNone && t.name.isNone && t.symbol.isNone && t.deployer.isNone &&
  t.creator.isNone && t.website.isNone && t.twitter.isNone &&
  t.twitterUsername.isNone && t.source.isNone && t.twitterFollowers.isNone &&
  t.twitterVerified.isNone && !t.extraKeys

/-- The kind-specific rule of the check_token_match loop body: given a token
and one filter, decides whether is_match is set.  Mirrors the if/elif chain
of the source, including each truthiness guard. -/
def matchesRule (token : Token) (f : WatchlistFilter) : Bool :=
  let value := pyLower f.value
  if f.type = "believe" then
    (token.source.getD "") == "believe"
  else if f.type = "twitter" then
    let nfv := normalize_twitter_handle value
    let nt := normalize_twitter_handle (token.twitter.getD "")
    let ntu := normalize_twitter_handle (token.twitterUsername.getD "")
    (nt ≠ "" && strContains nt nfv) || (ntu ≠ "" && strContains ntu nfv)
  else if f.type = "website" then
    let tw := pyLower (token.website.getD "")
    tw ≠ "" && strContains tw value
  else if f.type = "token" then
    let tn := pyLower (token.name.getD "")
    let ts := pyLower (token.symbol.getD "")
    let ta := pyLower (token.address.getD "")
    if value.length > 30 then ta == value
    else strContains tn value || strContains ts value
  else if f.type = "wallet" then
    let td := pyLower (token.deployer.getD "")
    let tc := pyLower (token.creator.getD "")
    td == value || tc == value
  else false

/-- The filter loop of check_token_match: returns the first filter whose rule
fires. -/
def checkLoop (token : Token) : List WatchlistFilter → Option WatchlistFilter
  | [] => none
  | f :: rest => if matchesRule token f then some f else checkLoop token rest

/-- Embeds check_token_match: a falsy (empty dict) token or an empty filter
list short-circuits to none, otherwise the loop returns the first filter
whose kind-specific rule is satisfied. -/
def check_token_match (token : Token) (filters : List WatchlistFilter) :
    Option WatchlistFilter :=
  if tokenIsEmpty token || filters.isEmpty then none
  else checkLoop token filters

/-- A match history entry: the token, the epoch-millis timestamp, and the
filter that matched. -/
structure MatchHistoryEntry where
  token : Token
  timestamp : Nat
  filter : WatchlistFilter
deriving DecidableEq, Repr

/-- The per-user slice of the global storage dicts: filters, the global
matched-token list and the match history. -/
structure UserState where
  filters : List WatchlistFilter
  matched : List Token
  history : List MatchHistoryEntry
deriving DecidableEq, Repr

/-- The addresses present in a token list: exactly the values collected by
the loops that test "address" in token before reading it. -/
def existingAddresses (l : List Token) : List String :=
  l.filterMap (fun t => t.address)

/-- The token-processing loop of process_new_tokens.  The existing-address
set is fixed for the whole batch (the source computes it once before the
loop and never updates it inside).  Returns the tokens appended to the
matched list, the entries appended to the history, and the new_matches
batch. -/
def pntLoop (filters : List WatchlistFilter) (existing : List String)
    (ts : Nat) :
    List Token → List Token × List MatchHistoryEntry ×
      List (Token × WatchlistFilter)
  | [] => ([], [], [])
  | t :: rest =>
    let skip := match t.address with
      | some a => existing.contains a
      | none => false
    if skip then pntLoop filters existing ts rest
    else
      match check_token_match t filters with
      | some f =>
        let (m, h, nm) := pntLoop filters existing ts rest
        (t :: m, ⟨t, ts, f⟩ :: h, (t, f) :: nm)
      | none => pntLoop filters existing ts rest

/-- Embeds process_new_tokens as a state transformer.  An empty batch or an
absent or empty filter list returns immediately with no state change; the
single timestamp parameter stands for the per-append clock reads, whose
values no claim depends on. -/
def process_new_tokens (st : UserState) (tokens : List Token) (ts : Nat) :
    UserState × List (Token × WatchlistFilter) :=
  if tokens.isEmpty || st.filters.isEmpty then (st, [])
  else
    let existing := existingAddresses st.matched
    let (m, h, nm) := pntLoop st.filters existing ts tokens
    ({ st with matched := st.matched ++ m, history := st.history ++ h }, nm)

/-- Python set insertion for the per-chat seen set, modelled as a duplicate
free list. -/
def seenInsert (a : String) (seen : List String) : List String :=
  if seen.contains a then seen else a :: seen

/-- The global-duplicate test of the tracking loop: is_new_globally is
cleared only when some existing matched token and the candidate both carry
an address key and the addresses coincide. -/
def sameAddress (et t : Token) : Bool :=
  match et.address, t.address with
  | some a, some b => a == b
  | _, _ => false

/-- The per-tick recording loop of tracking_task (the body that walks
all_tokens): skip candidates whose present address is already in the
per-chat seen set; on a filter match, append globally (matched list and
history) only when no already-matched token shares the address, then mark
the address seen for this chat, and in every matched case add the candidate
to the notification batch.  The matched list, history and seen set evolve
during the tick. -/
def tickLoop (filters : List WatchlistFilter) (ts : Nat) :
    List Token → List Token → List MatchHistoryEntry → List String →
      List Token × List MatchHistoryEntry × List String ×
        List (Token × WatchlistFilter)
  | [], matched, history, seen => (matched, history, seen, [])
  | t :: rest, matched, history, seen =>
    let skip := match t.address with
      | some a => seen.contains a
      | none => false
    if skip then tickLoop filters ts rest matched history seen
    else
      match check_token_match t filters with
      | none => tickLoop filters ts rest matched history seen
      | some f =>
        let isNew := !(matched.any (fun et => sameAddress et t))
        let matched2 := if isNew then matched ++ [t] else matched
        let history2 := if isNew then history ++ [⟨t, ts, f⟩] else history
        let seen2 := match t.address with
          | some a => seenInsert a seen
          | none => seen
        let (m, h, s, nm) := tickLoop filters ts rest matched2 history2 seen2
        (m, h, s, (t, f) :: nm)

/-- One tick of the tracking loop applied to a user state and the per-chat
seen set: returns the updated state, the updated seen set and the
notification batch of the tick. -/
def tracking_tick (st : UserState) (seen : List String)
    (tokens : List Token) (ts : Nat) :
    UserState × List String × List (Token × WatchlistFilter) :=
  let (m, h, s, nm) := tickLoop st.filters ts tokens st.matched st.history seen
  ({ st with matched := m, history := h }, s, nm)

/-- The chat_matched_tokens attribute initialisation at the top of
tracking_task: the context argument is none when the invoking callback
context does not yet carry the attribute (hasattr fails), which is the case
for every fresh command invocation, since the bot framework builds a new
callback context per update; the per-chat set is then created empty, and an
existing entry for the key is kept untouched. -/
def initChatMatched (ctx : Option (List (String × List String)))
    (key : String) : List (String × List String) :=
  match ctx with
  | none => [(key, [])]
  | some m => if (m.lookup key).isSome then m else (key, []) :: m

/-- The symbol-or-name fallback value used by clear_matches_command when
building an automatic filter for an unmatched token: token.get with nested
defaults reads the symbol key when present (even when empty), else the name
key, else the literal. -/
def symbolOrName (t : Token) : String :=
  match t.symbol with
  | some s => s
  | none => match t.name with
    | some n => n
    | none => "Unknown"

/-- The history entry built by clear_matches_command for one still-present
matched token: the first user filter whose singleton check_token_match is
truthy, else an automatic token-kind filter. -/
def clearEntryFor (filters : List WatchlistFilter) (now : Nat) (t : Token) :
    MatchHistoryEntry :=
  let mf := filters.find? (fun f => (check_token_match t [f]).isSome)
  let mf := mf.getD ⟨"auto-" ++ toString now, "token", symbolOrName t⟩
  ⟨t, now, mf⟩

/-- The fold predicate of clear_matches_command: a matched token is folded
into the history when it has no address key or its address is not among the
addresses already present in the history (a set computed once, before the
fold). -/
def clearShouldFold (existing : List String) (t : Token) : Bool :=
  match t.address with
  | none => true
  | some a => !existing.contains a

/-- Embeds the state mutation of clear_matches_command: when the user has no
matched tokens nothing happens; otherwise every matched token not already
represented in the history (by address) is appended to the history with a
found-or-automatic filter, and the matched list is emptied. -/
def clear_matches (st : UserState) (now : Nat) : UserState :=
  if st.matched.isEmpty then st
  else
    let existing := st.history.filterMap (fun e => e.token.address)
    let folded := (st.matched.filter (clearShouldFold existing)).map
      (clearEntryFor st.filters now)
    { st with history := st.history ++ folded, matched := [] }

/-- A user state together with the per-chat seen sets living on the task
contexts, keyed by tracking key.  clear_matches_command touches only the
user slice; no code path of it reaches any seen set. -/
structure BotState where
  user : UserState
  seenMaps : List (String × List String)
deriving DecidableEq, Repr

/-- clear_matches_command lifted to the combined state: the seen maps are
not an input of the mutation at all. -/
def clear_matches_command (bs : BotState) (now : Nat) : BotState :=
  { bs with user := clear_matches bs.user now }

/-!  FetchWithRetry.  The HTTP attempts are abstracted as an outcome oracle
(per attempt index: some payload on a 200 response with parsable JSON, none
on a non-2xx status or transport error) and the random jitter as a rational
oracle; 1.0 * (0.5 - random.random()) lies in the half-open interval from
-0.5 exclusive to 0.5 inclusive. -/

/-- The trace of one fetch_with_retry run: the returned payload, how many
attempts were executed, and the backoff sleeps in order. -/
structure RetryTrace where
  result : Option String
  attempts : Nat
  sleeps : List ℚ
deriving Repr

/-- The attempt loop of fetch_with_retry: the fuel argument is the number of
loop iterations still available (max_retries - attempt, positive on entry),
so the source guard attempt < max_retries - 1 (sleep only when a further
attempt remains) is fuel > 1.  On success the loop returns immediately; on
failure it sleeps min(2 ^ attempt * 2 + jitter, 20) only when further
attempts remain. -/
def retryGo (outcome : Nat → Option String) (jit : Nat → ℚ) :
    Nat → Nat → RetryTrace
  | _, 0 => ⟨none, 0, []⟩
  | attempt, fuel + 1 =>
    match outcome attempt with
    | some d => ⟨some d, 1, []⟩
    | none =>
      if fuel = 0 then ⟨none, 1, []⟩
      else
        let t := retryGo outcome jit (attempt + 1) fuel
        ⟨t.result, t.attempts + 1,
          min ((2 : ℚ) ^ attempt * 2 + jit attempt) 20 :: t.sleeps⟩

/-- Embeds fetch_with_retry (default max_retries = 3): the loop starts at
attempt 0 with max_retries iterations available. -/
def fetch_with_retry (outcome : Nat → Option String) (jit : Nat → ℚ)
    (max_retries : Nat := 3) : RetryTrace :=
  retryGo outcome jit 0 max_retries

/-!  The Primary-Feed client (fetch_latest_tokens) and its raw payload.  -/

/-- The string fields the transform reads from a token-shaped dict, through
extract_value (absent keys and null values both yield the empty default, so
they are collapsed into none).  extra records keys beyond the modelled ones
and feeds only the dict-truthiness test. -/
structure RawTok where
  mint : Option String := none
  address : Option String := none
  name : Option String := none
  symbol : Option String := none
  creator : Option String := none
  website : Option String := none
  twitter : Option String := none
  twitterUsername : Option String := none
  extra : Bool := false
deriving DecidableEq, Repr

/-- Python dict truthiness of a token-shaped dict. -/
def rawTokEmpty (t : RawTok) : Bool :=
  t.mint.isNone && t.address.isNone && t.name.isNone && t.symbol.isNone &&
  t.creator.isNone && t.website.isNone && t.twitter.isNone &&
  t.twitterUsername.isNone && !t.extra

/-- The value under the token key of an item: absent, present but not a
dict, or a dict. -/
inductive TokenField
  | absent
  | notDict
  | obj (t : RawTok)
deriving DecidableEq, Repr

/-- One entry of a pools array: a dict (with the two fields the transform
reads) or a non-dict value. -/
inductive PoolItem
  | notDict
  | obj (tokenAddress : Option String) (deployer : Option String)
deriving DecidableEq, Repr

/-- One entry of the Primary-Feed payload.  isDict is the isinstance check;
direct holds the fields readable on the item itself (used when the item
doubles as its own token dict); pools is none when the pools key is absent
or not a list; directHasTokenAddress records a tokenAddress key on the item,
which is_valid_token_data tests but the transform never reads. -/
structure RawItem where
  isDict : Bool := true
  token : TokenField := .absent
  pools : Option (List PoolItem) := none
  direct : RawTok := {}
  directHasTokenAddress : Bool := false
deriving DecidableEq, Repr

/-- Embeds is_valid_token_data. -/
def is_valid_token_data (it : RawItem) : Bool :=
  it.isDict &&
  ((match it.token with | .obj _ => true | _ => false) ||
   (match it.pools with | some l => !l.isEmpty | none => false) ||
   ((it.direct.address.isSome || it.direct.mint.isSome ||
       it.directHasTokenAddress) &&
    (it.direct.name.isSome || it.direct.symbol.isSome)))

/-- The token_data selection of the transform: the dict under the token key
when it is one, replaced by the item itself when the resulting dict is
falsy. -/
def tokenDataOf (it : RawItem) : RawTok :=
  match it.token with
  | .obj t => if rawTokEmpty t then it.direct else t
  | _ => it.direct

/-- The pool_data selection: the first pools entry when the array is
nonempty and its head is a dict, else an empty dict. -/
def poolDataOf (it : RawItem) : Option String × Option String :=
  match it.pools with
  | some (.obj ta dep :: _) => (ta, dep)
  | _ => (none, none)

/-- Python or-chaining on strings: the first truthy (nonempty) operand. -/
def pyOr (a b : String) : String :=
  if a = "" then b else a

/-- The per-item transform of fetch_latest_tokens: skip structurally invalid
items, build the processed token (address from mint, else address, else the
pool tokenAddress; creator falling back to the pool deployer), and keep it
only when the address is nonempty.  The omitted pass-through fields are
summarised by extraKeys (the processed dict always carries them). -/
def processItem (it : RawItem) : Option Token :=
  if !is_valid_token_data it then none
  else
    let td := tokenDataOf it
    let (poolTA, poolDep) := poolDataOf it
    let addr := pyOr (td.mint.getD "")
      (pyOr (td.address.getD "") (poolTA.getD ""))
    let tok : Token :=
      { address := some addr
        name := some (td.name.getD "")
        symbol := some (td.symbol.getD "")
        deployer := some (poolDep.getD "")
        creator := some (pyOr (td.creator.getD "") (poolDep.getD ""))
        website := some (td.website.getD "")
        twitter := some (td.twitter.getD "")
        twitterUsername := some (td.twitterUsername.getD "")
        extraKeys := true }
    if addr ≠ "" then some tok else none

/-- The whole-payload transform: per-item processing with invalid and
addressless items dropped. -/
def processData (items : List RawItem) : List Token :=
  items.filterMap processItem

/-- The two fallback placeholder tokens (MOCK_TOKENS). -/
def MOCK_TOKENS : List Token :=
  [{ address := some "mock1111111111111111111111111111111111111"
     name := some "Mock Token 1"
     symbol := some "MOCK1"
     deployer := some "mockdeployer111111111111111111111111111111"
     creator := some "mockcreator1111111111111111111111111111111"
     website := some "https://mocktoken1.com"
     twitter := some "@mocktoken1" },
   { address := some "mock2222222222222222222222222222222222222"
     name := some "Mock Token 2"
     symbol := some "MOCK2"
     deployer := some "mockdeployer222222222222222222222222222222"
     creator := some "mockcreator2222222222222222222222222222222"
     website := some "https://mocktoken2.com"
     twitter := some "@mocktoken2" }]

/-- The Primary-Feed client state: the module globals last_fetch_time,
cached_response, and the latest-tokens entry of token_cache (data and
expiresAt; the timestamp field is never read). -/
structure PrimaryState where
  last_fetch_time : Nat
  cached_response : Option (List Token)
  cacheEntry : Option (List Token × Nat)
deriving DecidableEq, Repr

/-- Embeds get_cached_data for the latest-tokens key: the data only strictly
before expiresAt. -/
def get_cached_data (st : PrimaryState) (now : Nat) : Option (List Token) :=
  match st.cacheEntry with
  | some (d, exp) => if now < exp then some d else none
  | none => none

/-- Python truthiness of cached_response: None and an empty list are falsy. -/
def cachedRespTruthy : Option (List Token) → Bool
  | none => false
  | some l => !l.isEmpty

/-- Embeds fetch_latest_tokens as a state transformer.  The fetch itself is
the outcome parameter: none when fetch_with_retry exhausted its attempts,
some items on a parsed payload.  The rate-limit window is 1500 ms and the
TTL cache pre-check applies only when not forcing; on a failed fetch the
fallback is the unexpired cache entry, else the mock tokens (which are then
cached); a payload transforming to zero valid tokens returns the mock
tokens directly. -/
def fetch_latest_tokens (st : PrimaryState) (now : Nat) (force : Bool)
    (outcome : Option (List RawItem)) : List Token × PrimaryState :=
  if !force && now - st.last_fetch_time < 1500 &&
      cachedRespTruthy st.cached_response then
    (st.cached_response.getD [], st)
  else if !force && (get_cached_data st now).isSome then
    ((get_cached_data st now).getD [], st)
  else
    match outcome with
    | none =>
      match get_cached_data st now with
      | some d => (d, st)
      | none =>
        (MOCK_TOKENS,
         { last_fetch_time := now
           cached_response := some MOCK_TOKENS
           cacheEntry := some (MOCK_TOKENS, now + 30 * 60 * 1000) })
    | some items =>
      let processed := processData items
      if processed.isEmpty then (MOCK_TOKENS, st)
      else
        (processed,
         { last_fetch_time := now
           cached_response := some processed
           cacheEntry := some (processed, now + 30 * 60 * 1000) })

/-!  The Signal-Feed client (fetch_believe_tokens).  -/

/-- The twitter_info sub-dict of a Signal-Feed record, when present and a
dict (a present non-dict value, which the isinstance test also rejects, is
collapsed with absence). -/
structure TwInfo where
  followers_count : Nat := 0
  is_blue_verified : Bool := false
deriving DecidableEq, Repr

/-- One record of the Signal-Feed payload, holding the fields the transform
reads through .get. -/
structure RawBelieve where
  ca_address : Option String := none
  coin_name : Option String := none
  coin_ticker : Option String := none
  twitter_handler : Option String := none
  link : Option String := none
  twitter_info : Option TwInfo := none
deriving DecidableEq, Repr

/-- The Signal-Feed response as seen by the client: a transport error or a
non-200 status (the raised exception), a JSON payload that is not a list,
or a list of records. -/
inductive BResp
  | fail
  | badShape
  | ok (l : List RawBelieve)
deriving DecidableEq, Repr

/-- The per-record transform of fetch_believe_tokens: every field defaults
to the empty string, the source tag is set to believe, and the twitter
metadata is copied only when the twitter_info dict is present.  created_at
and original_data are among the extra keys. -/
def believeToken (r : RawBelieve) : Token :=
  { address := some (r.ca_address.getD "")
    name := some (r.coin_name.getD "")
    symbol := some (r.coin_ticker.getD "")
    twitter := some (r.twitter_handler.getD "")
    website := some (r.link.getD "")
    source := some "believe"
    twitterFollowers := r.twitter_info.map (fun i => i.followers_count)
    twitterVerified := r.twitter_info.map (fun i => i.is_blue_verified)
    extraKeys := true }

/-- The Signal-Feed client state: the single module-global
last_believe_fetch_time shared by every threshold, and the cache keyed by
the believe-n cache key. -/
structure BelieveState where
  last_believe_fetch_time : Nat
  cache : List (String × List Token)
deriving DecidableEq, Repr

/-- The cache key of a minimum-follower threshold. -/
def believeKey (min_followers : Nat) : String :=
  "believe-" ++ toString min_followers

/-- Store a value under a cache key, replacing any previous slot. -/
def cacheInsert (k : String) (v : List Token)
    (m : List (String × List Token)) : List (String × List Token) :=
  (k, v) :: m.filter (fun p => p.1 ≠ k)

/-- Embeds fetch_believe_tokens as a state transformer over the shared
client state.  A non-forced call within 4000 ms of the last live fetch (by
any threshold) returns the cached slot of this threshold when one exists;
a raised error falls back to the cached slot or an empty list; a non-list
or empty payload returns an empty list without caching; otherwise the
transformed list is cached under this threshold and the shared timestamp
is advanced. -/
def fetch_believe_tokens (st : BelieveState) (now : Nat)
    (min_followers : Nat) (force : Bool) (resp : BResp) :
    List Token × BelieveState :=
  let key := believeKey min_followers
  if !force && now - st.last_believe_fetch_time < 4000 &&
      (st.cache.lookup key).isSome then
    ((st.cache.lookup key).getD [], st)
  else
    match resp with
    | .fail =>
      match st.cache.lookup key with
      | some d => (d, st)
      | none => ([], st)
    | .badShape => ([], st)
    | .ok l =>
      if l.isEmpty then ([], st)
      else
        let processed := l.map believeToken
        (processed,
         { last_believe_fetch_time := now
           cache := cacheInsert key processed st.cache })

/-!  Predicates named by the claims, and concrete sample data used by the
counterexamples and witnesses.  -/

/-- A token carries a non-empty address (the persistence requirement of the
data model). -/
def addrNonEmpty (t : Token) : Bool :=
  t.address.getD "" != ""

/-- Every global matched token and every history entry token carries a
non-empty address. -/
def stateAddrInv (st : UserState) : Prop :=
  (∀ t ∈ st.matched, addrNonEmpty t = true) ∧
  (∀ e ∈ st.history, addrNonEmpty e.token = true)

/-- Number of matched-list entries carrying a given address. -/
def countAddr (l : List Token) (a : String) : Nat :=
  (l.filter (fun t => t.address == some a)).length

/-- Number of history entries whose token carries a given address. -/
def countAddrHist (l : List MatchHistoryEntry) (a : String) : Nat :=
  (l.filter (fun e => e.token.address == some a)).length

/-- The tokens of a list carry pairwise distinct present addresses. -/
def DistinctAddrs (l : List Token) : Prop :=
  l.Pairwise (fun s t => ∀ x y, s.address = some x → t.address = some y → x ≠ y)

/-- A Signal-Feed record with no ca_address field: its transformed token
carries an empty address. -/
def c1GhostRaw : RawBelieve := { coin_name := some "Ghost" }

/-- A believe filter as stored by add_filter. -/
def c1BelieveFilter : WatchlistFilter := ⟨"f1", "believe", "100"⟩

/-- A token-kind filter on the word pump. -/
def c2Filter : WatchlistFilter := ⟨"f2", "token", "pump"⟩

/-- A token matching c2Filter by name. -/
def c2Token : Token :=
  { address := some "pumpaddr111", name := some "pump token",
    symbol := some "PMP", extraKeys := true }

/-- A previously cached Primary-Feed token. -/
def c3CachedToken : Token :=
  { address := some "cachedaddr111", name := some "Cached Token",
    symbol := some "CCH", extraKeys := true }

/-- A Primary-Feed client state holding an unexpired cache entry. -/
def c3State : PrimaryState := ⟨0, none, some ([c3CachedToken], 2000)⟩

/-- A structurally invalid payload item (not a dict). -/
def c3BadItem : RawItem := { isDict := false }

/-- The cached token of threshold 0. -/
def c4TokenA : Token :=
  { address := some "addrAAA", name := some "Alpha",
    source := some "believe", extraKeys := true }

/-- The cached token of threshold 100. -/
def c4TokenB : Token :=
  { address := some "addrBBB", name := some "Beta",
    source := some "believe", extraKeys := true }

/-- A Signal-Feed client state just after a live fetch for threshold 0 at
time 1000, with cache slots for thresholds 0 and 100. -/
def c4State : BelieveState :=
  ⟨1000, [(believeKey 0, [c4TokenA]), (believeKey 100, [c4TokenB])]⟩

/-- A fresh upstream record that a live threshold-100 fetch would return. -/
def c4Fresh : RawBelieve :=
  { ca_address := some "freshaddr", coin_name := some "Fresh" }

/-- A believe filter with threshold 0. -/
def c5Filter : WatchlistFilter := ⟨"f5", "believe", "0"⟩

/-- A Signal-Feed token previously notified in the stopped session. -/
def c5Token : Token :=
  believeToken { ca_address := some "addrfive", coin_name := some "Five" }

/-!  Theorems.  -/

/-- Boolean equality tests are symmetric. -/
theorem beq_comm_eq {α : Type} [BEq α] [LawfulBEq α] (a b : α) :
    (a == b) = (b == a) := by
  by_cases h : a = b
  · subst h; rfl
  · have h1 : (a == b) = false := beq_eq_false_iff_ne.mpr h
    have h2 : (b == a) = false := beq_eq_false_iff_ne.mpr (Ne.symm h)
    rw [h1, h2]

/-- C7: for filters of kind twitter, are_filters_equal is insensitive to an
at-prefix, to letter case, and to full-profile-URL versus bare-handle form:
the three spec values are pairwise equal in both argument orders. -/
theorem C7_twitter_equal_insensitive :
    are_filters_equal ⟨"a", "twitter", "@Foo"⟩ ⟨"b", "twitter", "foo"⟩ = true ∧
    are_filters_equal ⟨"a", "twitter", "@Foo"⟩
      ⟨"b", "twitter", "https://x.com/foo"⟩ = true ∧
    are_filters_equal ⟨"a", "twitter", "foo"⟩
      ⟨"b", "twitter", "https://x.com/foo"⟩ = true ∧
    are_filters_equal ⟨"a", "twitter", "foo"⟩ ⟨"b", "twitter", "@Foo"⟩ = true ∧
    are_filters_equal ⟨"a", "twitter", "https://x.com/foo"⟩
      ⟨"b", "twitter", "@Foo"⟩ = true ∧
    are_filters_equal ⟨"a", "twitter", "https://x.com/foo"⟩
      ⟨"b", "twitter", "foo"⟩ = true := by
  decide

/-- C10: are_filters_equal is symmetric for every pair of filters, in every
kind branch including the believe integer-or-string comparison, so duplicate
detection does not depend on which filter is the stored one. -/
theorem C10_are_filters_equal_symm (f1 f2 : WatchlistFilter) :
    are_filters_equal f1 f2 = are_filters_equal f2 f1 := by
  unfold are_filters_equal
  by_cases ht : f1.type = f2.type
  · rw [ht]
    have hne : ¬ (f2.type ≠ f2.type) := fun hc => hc rfl
    rw [if_neg hne, if_neg hne]
    split_ifs with h1 h2 h3 h4
    · exact beq_comm_eq _ _
    · exact beq_comm_eq _ _
    · exact beq_comm_eq _ _
    · rcases pyParseInt f1.value with _ | a <;>
        rcases pyParseInt f2.value with _ | b <;>
        simp [beq_comm_eq]
    · exact beq_comm_eq _ _
  · rw [if_pos ht, if_pos (Ne.symm ht)]

/-- For a non-falsy token, check_token_match is the plain filter loop: the
empty-filter-list guard agrees with the loop on the empty list. -/
theorem check_token_match_eq_loop (t : Token) (fs : List WatchlistFilter)
    (h : tokenIsEmpty t = false) : check_token_match t fs = checkLoop t fs := by
  cases fs with
  | nil => simp [check_token_match, checkLoop, h]
  | cons f rest => simp [check_token_match, h]

/-- C6: for every non-falsy token and every ordered filter list,
check_token_match returns none exactly when no filter rule is satisfied,
and whatever filter it returns satisfies its rule, sits at some position of
the list, and every earlier position holds a filter whose rule the token
does not satisfy: first-match-wins. -/
theorem C6_first_match_wins (t : Token) (fs : List WatchlistFilter)
    (h : tokenIsEmpty t = false) :
    (check_token_match t fs = none ↔ ∀ f ∈ fs, matchesRule t f = false) ∧
    (∀ f, check_token_match t fs = some f →
      matchesRule t f = true ∧
      ∃ i : Nat, fs[i]? = some f ∧
        ∀ j : Nat, j < i → ∀ g, fs[j]? = some g → matchesRule t g = false) := by
  rw [check_token_match_eq_loop t fs h]
  clear h
  induction fs with
  | nil => simp [checkLoop]
  | cons a rest ih =>
    cases ha : matchesRule t a with
    | true =>
      constructor
      · simp [checkLoop, ha]
      · intro f hf
        simp [checkLoop, ha] at hf
        subst hf
        refine ⟨ha, 0, by simp, ?_⟩
        intro j hj
        omega
    | false =>
      constructor
      · rw [show checkLoop t (a :: rest) = checkLoop t rest by
          simp [checkLoop, ha]]
        simp only [List.mem_cons]
        constructor
        · intro hn f hf
          rcases hf with hf | hf
          · subst hf; exact ha
          · exact (ih.1).mp hn f hf
        · intro hall
          exact (ih.1).mpr (fun f hf => hall f (Or.inr hf))
      · intro f hf
        rw [show checkLoop t (a :: rest) = checkLoop t rest by
          simp [checkLoop, ha]] at hf
        obtain ⟨hrule, i, hi, hbefore⟩ := ih.2 f hf
        refine ⟨hrule, i + 1, by simpa using hi, ?_⟩
        intro j hj g hg
        cases j with
        | zero =>
          simp at hg
          subst hg
          exact ha
        | succ k =>
          simp at hg
          exact hbefore k (by omega) g hg

/-- Witness for C6 at a concrete token and filter list. -/
theorem C6_first_match_wins_witness :
    tokenIsEmpty c2Token = false ∧
    ((check_token_match c2Token [c2Filter] = none ↔
        ∀ f ∈ [c2Filter], matchesRule c2Token f = false) ∧
      (∀ f, check_token_match c2Token [c2Filter] = some f →
        matchesRule c2Token f = true ∧
        ∃ i : Nat, [c2Filter][i]? = some f ∧
          ∀ j : Nat, j < i → ∀ g, [c2Filter][j]? = some g →
            matchesRule c2Token g = false)) :=
  ⟨by decide, C6_first_match_wins c2Token [c2Filter] (by decide)⟩

/-- C9: with the default max_retries = 3 and jitter within one half either
way, fetch_with_retry executes at most 3 attempts, sleeps exactly once
between consecutive attempts and never after the last, each sleep being
min(2 ^ attempt * 2 + jitter, 20), hence never more than 20 seconds. -/
theorem C9_retry_bounds (outcome : Nat → Option String) (jit : Nat → ℚ)
    (_hjit : ∀ i, -(1 / 2 : ℚ) ≤ jit i ∧ jit i ≤ 1 / 2) :
    (fetch_with_retry outcome jit).attempts ≤ 3 ∧
    (fetch_with_retry outcome jit).sleeps =
      (List.range ((fetch_with_retry outcome jit).attempts - 1)).map
        (fun i => min ((2 : ℚ) ^ i * 2 + jit i) 20) ∧
    (fetch_with_retry outcome jit).sleeps.length =
      (fetch_with_retry outcome jit).attempts - 1 ∧
    (∀ s ∈ (fetch_with_retry outcome jit).sleeps, s ≤ 20) := by
  have hmain : (fetch_with_retry outcome jit).attempts ≤ 3 ∧
      (fetch_with_retry outcome jit).sleeps =
        (List.range ((fetch_with_retry outcome jit).attempts - 1)).map
          (fun i => min ((2 : ℚ) ^ i * 2 + jit i) 20) := by
    unfold fetch_with_retry
    rcases h0 : outcome 0 with _ | d0 <;>
      rcases h1 : outcome 1 with _ | d1 <;>
        rcases h2 : outcome 2 with _ | d2 <;>
          refine ⟨by simp [retryGo, h0, h1, h2], ?_⟩ <;>
            simp [retryGo, h0, h1, h2, List.range_succ]
  refine ⟨hmain.1, hmain.2, ?_, ?_⟩
  · rw [hmain.2]
    simp
  · intro s hs
    rw [hmain.2] at hs
    simp only [List.mem_map] at hs
    obtain ⟨i, _, rfl⟩ := hs
    exact min_le_right _ _

/-- Witness for C9 with always-failing attempts and zero jitter. -/
theorem C9_retry_bounds_witness :
    (∀ i : Nat, -(1 / 2 : ℚ) ≤ (fun _ => (0 : ℚ)) i ∧
      (fun _ => (0 : ℚ)) i ≤ 1 / 2) ∧
    ((fetch_with_retry (fun _ => none) (fun _ => (0 : ℚ))).attempts ≤ 3 ∧
      (fetch_with_retry (fun _ => none) (fun _ => (0 : ℚ))).sleeps =
        (List.range
          ((fetch_with_retry (fun _ => none)
            (fun _ => (0 : ℚ))).attempts - 1)).map
          (fun i => min ((2 : ℚ) ^ i * 2 + (fun _ => (0 : ℚ)) i) 20) ∧
      (fetch_with_retry (fun _ => none) (fun _ => (0 : ℚ))).sleeps.length =
        (fetch_with_retry (fun _ => none) (fun _ => (0 : ℚ))).attempts - 1 ∧
      (∀ s ∈ (fetch_with_retry (fun _ => none) (fun _ => (0 : ℚ))).sleeps,
        s ≤ 20)) :=
  ⟨fun i => by norm_num,
   C9_retry_bounds (fun _ => none) (fun _ => (0 : ℚ)) (fun i => by norm_num)⟩

/-- C5: stop_tracking_command only cancels the polling task, but every
/start_tracking invocation receives a fresh callback context without the
chat_matched_tokens attribute (the argument none of initChatMatched), so the
restarted session initialises an empty per-chat seen set for its tracking
key; consequently a token whose address the stopped session had already
seen (it is in oldSeen, so a tick of the old session suppresses it) is
matched and notified again by the first tick of the new session. -/
theorem C5_fresh_session_renotifies (key : String) (oldSeen : List String)
    (st : UserState) (t : Token) (f : WatchlistFilter) (a : String) (ts : Nat)
    (ha : t.address = some a) (hseen : oldSeen.contains a = true)
    (hmatch : check_token_match t st.filters = some f) :
    (tracking_tick st oldSeen [t] ts).2.2 = [] ∧
    (initChatMatched none key).lookup key = some [] ∧
    (t, f) ∈
      (tracking_tick st (((initChatMatched none key).lookup key).getD [])
        [t] ts).2.2 := by
  have hmem : a ∈ oldSeen := by simpa using hseen
  refine ⟨?_, ?_, ?_⟩
  · simp [tracking_tick, tickLoop, ha, hmem]
  · simp [initChatMatched]
  · simp [initChatMatched, tracking_tick, tickLoop, ha, hmatch]

/-- Witness for C5: a believe token already notified before the restart. -/
theorem C5_fresh_session_renotifies_witness :
    c5Token.address = some "addrfive" ∧
    (["addrfive"].contains "addrfive" = true) ∧
    check_token_match c5Token [c5Filter] = some c5Filter ∧
    ((tracking_tick ⟨[c5Filter], [c5Token], []⟩ ["addrfive"] [c5Token] 9).2.2
        = [] ∧
      (initChatMatched none "11:22").lookup "11:22" = some [] ∧
      (c5Token, c5Filter) ∈
        (tracking_tick ⟨[c5Filter], [c5Token], []⟩
          (((initChatMatched none "11:22").lookup "11:22").getD [])
          [c5Token] 9).2.2) :=
  ⟨by decide, by decide, by decide,
   C5_fresh_session_renotifies "11:22" ["addrfive"]
     ⟨[c5Filter], [c5Token], []⟩ c5Token c5Filter "addrfive" 9
     (by decide) (by decide) (by decide)⟩

/-- C8: when the user has matched tokens, clear_matches_command empties the
global matched list, leaves every per-chat seen set unchanged, extends the
history (a durable superset), folds into it every matched token not already
represented there by address, and in the spec scenario of an empty prior
history the new history tokens are exactly the matched list. -/
theorem C8_clear_matches_folds (bs : BotState) (now : Nat)
    (h : bs.user.matched ≠ []) :
    (clear_matches_command bs now).user.matched = [] ∧
    (clear_matches_command bs now).seenMaps = bs.seenMaps ∧
    bs.user.history <+: (clear_matches_command bs now).user.history ∧
    (clear_matches_command bs now).user.history =
      bs.user.history ++
        (bs.user.matched.filter
          (clearShouldFold
            (bs.user.history.filterMap (fun e => e.token.address)))).map
          (clearEntryFor bs.user.filters now) ∧
    (∀ t ∈ bs.user.matched,
      clearShouldFold
        (bs.user.history.filterMap (fun e => e.token.address)) t = true →
      t ∈ (clear_matches_command bs now).user.history.map
        (fun e => e.token)) ∧
    (bs.user.history = [] →
      (clear_matches_command bs now).user.history.map (fun e => e.token) =
        bs.user.matched) := by
  have hne : bs.user.matched.isEmpty = false := by
    rcases hm : bs.user.matched with _ | ⟨x, xs⟩
    · exact absurd hm h
    · rfl
  refine ⟨?_, ?_, ?_, ?_, ?_, ?_⟩
  · simp [clear_matches_command, clear_matches, hne]
  · simp [clear_matches_command, clear_matches]
  · simp only [clear_matches_command, clear_matches, hne, Bool.false_eq_true,
      if_false]
    exact List.prefix_append _ _
  · simp [clear_matches_command, clear_matches, hne]
  · intro t ht hf
    simp only [clear_matches_command, clear_matches, hne, Bool.false_eq_true,
      if_false, List.map_append, List.mem_append, List.map_map]
    right
    exact List.mem_map.mpr ⟨t, List.mem_filter.mpr ⟨ht, hf⟩, rfl⟩
  · intro h0
    simp only [clear_matches_command, clear_matches, hne, Bool.false_eq_true,
      if_false, h0, List.filterMap_nil, List.nil_append, List.map_map]
    have hall : ∀ t ∈ bs.user.matched, clearShouldFold [] t = true := by
      intro t _
      rcases ha : t.address with _ | a <;> simp [clearShouldFold, ha]
    rw [List.filter_eq_self.mpr hall]
    exact List.map_congr_left (fun t _ => rfl) |>.trans (List.map_id _)

/-- Witness for C8: the spec scenario with two matched tokens and an empty
history, plus a nonempty seen set that must survive. -/
theorem C8_clear_matches_folds_witness :
    (([c2Token, c4TokenA] : List Token) ≠ []) ∧
    ((clear_matches_command
        ⟨⟨[c2Filter], [c2Token, c4TokenA], []⟩, [("11:22", ["x"])]⟩
        44).user.matched = [] ∧
      (clear_matches_command
        ⟨⟨[c2Filter], [c2Token, c4TokenA], []⟩, [("11:22", ["x"])]⟩
        44).seenMaps = [("11:22", ["x"])] ∧
      ([] : List MatchHistoryEntry) <+:
        (clear_matches_command
          ⟨⟨[c2Filter], [c2Token, c4TokenA], []⟩, [("11:22", ["x"])]⟩
          44).user.history ∧
      (clear_matches_command
          ⟨⟨[c2Filter], [c2Token, c4TokenA], []⟩, [("11:22", ["x"])]⟩
          44).user.history =
        ([] : List MatchHistoryEntry) ++
          (([c2Token, c4TokenA] : List Token).filter
            (clearShouldFold
              (([] : List MatchHistoryEntry).filterMap
                (fun e => e.token.address)))).map
            (clearEntryFor [c2Filter] 44) ∧
      (∀ t ∈ ([c2Token, c4TokenA] : List Token),
        clearShouldFold
          (([] : List MatchHistoryEntry).filterMap
            (fun e => e.token.address)) t = true →
        t ∈ (clear_matches_command
          ⟨⟨[c2Filter], [c2Token, c4TokenA], []⟩, [("11:22", ["x"])]⟩
          44).user.history.map (fun e => e.token)) ∧
      (([] : List MatchHistoryEntry) = [] →
        (clear_matches_command
          ⟨⟨[c2Filter], [c2Token, c4TokenA], []⟩, [("11:22", ["x"])]⟩
          44).user.history.map (fun e => e.token) =
          [c2Token, c4TokenA])) :=
  ⟨by decide,
   C8_clear_matches_folds
     ⟨⟨[c2Filter], [c2Token, c4TokenA], []⟩, [("11:22", ["x"])]⟩ 44
     (by decide)⟩

/-- C3 fails on the code: a forced fetch whose payload transforms into zero
valid tokens returns the mock tokens directly even though an unexpired cache
entry exists, so the fallback in that failure mode is not cache first. -/
theorem C3_counterexample :
    (get_cached_data c3State 1000).isSome = true ∧
    (fetch_latest_tokens c3State 1000 true (some [c3BadItem])).1 =
      MOCK_TOKENS ∧
    (fetch_latest_tokens c3State 1000 true (some [c3BadItem])).1 ≠
      [c3CachedToken] := by
  decide

/-- C3 amended: when retries are exhausted the fallback order is the
unexpired cache entry first, then the mock tokens; but when the payload
transforms into zero valid tokens the function returns the mock tokens
directly, without consulting the cache. -/
theorem C3_amended_fallback (st : PrimaryState) (now : Nat)
    (items : List RawItem) (hzero : processData items = []) :
    (fetch_latest_tokens st now true none).1 =
      (get_cached_data st now).getD MOCK_TOKENS ∧
    (fetch_latest_tokens st now true (some items)).1 = MOCK_TOKENS := by
  constructor
  · unfold fetch_latest_tokens
    rcases h : get_cached_data st now with _ | d <;> simp [h]
  · unfold fetch_latest_tokens
    simp [hzero]

/-- Witness for the amended C3 at the counterexample state. -/
theorem C3_amended_fallback_witness :
    processData [c3BadItem] = [] ∧
    ((fetch_latest_tokens c3State 1000 true none).1 =
        (get_cached_data c3State 1000).getD MOCK_TOKENS ∧
      (fetch_latest_tokens c3State 1000 true (some [c3BadItem])).1 =
        MOCK_TOKENS) :=
  ⟨by decide, C3_amended_fallback c3State 1000 [c3BadItem] (by decide)⟩

/-- C4 fails on the code: the 4-second window is a single module-global
timestamp shared by all thresholds, so a non-forced fetch for threshold 100
issued 2 seconds after a live fetch for threshold 0 is suppressed by that
fetch and returns the threshold-100 cache slot instead of the fresh
payload. -/
theorem C4_counterexample :
    (fetch_believe_tokens c4State 3000 100 false (.ok [c4Fresh])).1 =
      [c4TokenB] ∧
    (fetch_believe_tokens c4State 3000 100 false (.ok [c4Fresh])).1 ≠
      [believeToken c4Fresh] ∧
    (fetch_believe_tokens c4State 3000 100 false (.ok [c4Fresh])).2 =
      c4State := by
  decide

/-- C4 amended: within 4 seconds of the last live fetch by any threshold, a
non-forced fetch returns the requested threshold's cache slot whenever that
slot exists; only a threshold with no cache slot proceeds to a live fetch
inside the window. -/
theorem C4_amended_shared_window (st : BelieveState) (now mf : Nat)
    (resp : BResp) (l : List RawBelieve)
    (hwin : now - st.last_believe_fetch_time < 4000) :
    ((st.cache.lookup (believeKey mf)).isSome = true →
      fetch_believe_tokens st now mf false resp =
        ((st.cache.lookup (believeKey mf)).getD [], st)) ∧
    (st.cache.lookup (believeKey mf) = none → l ≠ [] →
      (fetch_believe_tokens st now mf false (.ok l)).1 =
        l.map believeToken) := by
  constructor
  · intro hsome
    unfold fetch_believe_tokens
    simp [hwin, hsome]
  · intro hnone hl
    unfold fetch_believe_tokens
    simp [hwin, hnone, hl]

/-- Witness for the amended C4 at the counterexample state: threshold 100
has a slot and is served from it; threshold 7 has no slot and fetches
live. -/
theorem C4_amended_shared_window_witness :
    3000 - c4State.last_believe_fetch_time < 4000 ∧
    (((c4State.cache.lookup (believeKey 100)).isSome = true →
        fetch_believe_tokens c4State 3000 100 false (.ok [c4Fresh]) =
          ((c4State.cache.lookup (believeKey 100)).getD [], c4State)) ∧
      (c4State.cache.lookup (believeKey 100) = none → [c4Fresh] ≠ [] →
        (fetch_believe_tokens c4State 3000 100 false (.ok [c4Fresh])).1 =
          [c4Fresh].map believeToken)) ∧
    ((c4State.cache.lookup (believeKey 7)).isSome = true →
        fetch_believe_tokens c4State 3000 7 false (.ok [c4Fresh]) =
          ((c4State.cache.lookup (believeKey 7)).getD [], c4State)) ∧
      (c4State.cache.lookup (believeKey 7) = none → [c4Fresh] ≠ [] →
        (fetch_believe_tokens c4State 3000 7 false (.ok [c4Fresh])).1 =
          [c4Fresh].map believeToken) :=
  ⟨by decide,
   C4_amended_shared_window c4State 3000 100 (.ok [c4Fresh]) [c4Fresh]
     (by decide),
   C4_amended_shared_window c4State 3000 7 (.ok [c4Fresh]) [c4Fresh]
     (by decide)⟩

/-- Every token appended by the process_new_tokens loop, and the token of
every appended history entry, comes from the candidate batch. -/
theorem pntLoop_mem (filters : List WatchlistFilter) (existing : List String)
    (ts : Nat) :
    ∀ tokens : List Token,
      (∀ x ∈ (pntLoop filters existing ts tokens).1, x ∈ tokens) ∧
      (∀ e ∈ (pntLoop filters existing ts tokens).2.1, e.token ∈ tokens) := by
  intro tokens
  induction tokens with
  | nil => simp [pntLoop]
  | cons t rest ih =>
    obtain ⟨ih1, ih2⟩ := ih
    rcases hp : pntLoop filters existing ts rest with ⟨m, hh, nm⟩
    rw [hp] at ih1 ih2
    simp only [pntLoop, hp]
    by_cases hskip : (match t.address with
        | some a => existing.contains a
        | none => false) = true
    · rw [if_pos hskip]
      exact ⟨fun x hx => List.mem_cons_of_mem _ (ih1 x hx),
        fun e he => List.mem_cons_of_mem _ (ih2 e he)⟩
    · rw [if_neg hskip]
      rcases hc : check_token_match t filters with _ | f
      · simp only [hc]
        exact ⟨fun x hx => List.mem_cons_of_mem _ (ih1 x hx),
          fun e he => List.mem_cons_of_mem _ (ih2 e he)⟩
      · simp only [hc]
        constructor
        · intro x hx
          rcases List.mem_cons.mp hx with hx | hx
          · exact hx ▸ List.mem_cons_self _ _
          · exact List.mem_cons_of_mem _ (ih1 x hx)
        · intro e he
          rcases List.mem_cons.mp he with he | he
          · subst he
            exact List.mem_cons_self _ _
          · exact List.mem_cons_of_mem _ (ih2 e he)

/-- Every token in the matched list after a tracking tick was already in the
matched accumulator or comes from the candidate batch, and likewise for the
tokens of history entries. -/
theorem tickLoop_mem (filters : List WatchlistFilter) (ts : Nat) :
    ∀ (tokens matched : List Token) (history : List MatchHistoryEntry)
      (seen : List String),
      (∀ x ∈ (tickLoop filters ts tokens matched history seen).1,
        x ∈ matched ∨ x ∈ tokens) ∧
      (∀ e ∈ (tickLoop filters ts tokens matched history seen).2.1,
        e ∈ history ∨ e.token ∈ tokens) := by
  intro tokens
  induction tokens with
  | nil =>
    intro matched history seen
    simp [tickLoop]
  | cons t rest ih =>
    intro matched history seen
    by_cases hskip : (match t.address with
        | some a => seen.contains a
        | none => false) = true
    · have hred : tickLoop filters ts (t :: rest) matched history seen =
          tickLoop filters ts rest matched history seen := by
        simp only [tickLoop]
        rw [if_pos hskip]
      rw [hred]
      obtain ⟨ih1, ih2⟩ := ih matched history seen
      exact ⟨fun x hx => (ih1 x hx).imp id (List.mem_cons_of_mem _),
        fun e he => (ih2 e he).imp id (List.mem_cons_of_mem _)⟩
    · rcases hc : check_token_match t filters with _ | f
      · have hred : tickLoop filters ts (t :: rest) matched history seen =
            tickLoop filters ts rest matched history seen := by
          simp only [tickLoop]
          rw [if_neg hskip, hc]
        rw [hred]
        obtain ⟨ih1, ih2⟩ := ih matched history seen
        exact ⟨fun x hx => (ih1 x hx).imp id (List.mem_cons_of_mem _),
          fun e he => (ih2 e he).imp id (List.mem_cons_of_mem _)⟩
      · by_cases hnew : matched.any (fun et => sameAddress et t) = true
        · have hred : tickLoop filters ts (t :: rest) matched history seen =
              (fun r => (r.1, r.2.1, r.2.2.1, (t, f) :: r.2.2.2))
                (tickLoop filters ts rest matched history
                  (match t.address with
                    | some a => seenInsert a seen
                    | none => seen)) := by
            simp only [tickLoop]
            rw [if_neg hskip, hc]
            simp [hnew]
          rw [hred]
          obtain ⟨ih1, ih2⟩ := ih matched history
            (match t.address with
              | some a => seenInsert a seen
              | none => seen)
          exact ⟨fun x hx => (ih1 x hx).imp id (List.mem_cons_of_mem _),
            fun e he => (ih2 e he).imp id (List.mem_cons_of_mem _)⟩
        · have hred : tickLoop filters ts (t :: rest) matched history seen =
              (fun r => (r.1, r.2.1, r.2.2.1, (t, f) :: r.2.2.2))
                (tickLoop filters ts rest (matched ++ [t])
                  (history ++ [⟨t, ts, f⟩])
                  (match t.address with
                    | some a => seenInsert a seen
                    | none => seen)) := by
            simp only [tickLoop]
            rw [if_neg hskip, hc]
            simp [hnew]
          rw [hred]
          obtain ⟨ih1, ih2⟩ := ih (matched ++ [t]) (history ++ [⟨t, ts, f⟩])
            (match t.address with
              | some a => seenInsert a seen
              | none => seen)
          constructor
          · intro x hx
            rcases ih1 x hx with hx2 | hx2
            · rcases List.mem_append.mp hx2 with hx3 | hx3
              · exact Or.inl hx3
              · simp only [List.mem_singleton] at hx3
                exact Or.inr (hx3 ▸ List.mem_cons_self _ _)
            · exact Or.inr (List.mem_cons_of_mem _ hx2)
          · intro e he
            rcases ih2 e he with he2 | he2
            · rcases List.mem_append.mp he2 with he3 | he3
              · exact Or.inl he3
              · simp only [List.mem_singleton] at he3
                subst he3
                exact Or.inr (List.mem_cons_self _ _)
            · exact Or.inr (List.mem_cons_of_mem _ he2)

/-- The state after process_new_tokens when the guard does not fire: the
matched list and history are extended by the loop output, the filters are
untouched. -/
theorem process_new_tokens_eq (st : UserState) (tokens : List Token)
    (ts : Nat) (hguard : (tokens.isEmpty || st.filters.isEmpty) = false) :
    (process_new_tokens st tokens ts).1.matched =
      st.matched ++
        (pntLoop st.filters (existingAddresses st.matched) ts tokens).1 ∧
    (process_new_tokens st tokens ts).1.history =
      st.history ++
        (pntLoop st.filters (existingAddresses st.matched) ts tokens).2.1 ∧
    (process_new_tokens st tokens ts).1.filters = st.filters := by
  unfold process_new_tokens
  rw [if_neg (by simp [hguard])]
  dsimp only
  rcases hp : pntLoop st.filters (existingAddresses st.matched) ts tokens
    with ⟨m, hh, nm⟩
  simp

/-- The state after one tracking tick is the loop output started from the
user state and the per-chat seen set. -/
theorem tracking_tick_eq (st : UserState) (seen : List String)
    (tokens : List Token) (ts : Nat) :
    (tracking_tick st seen tokens ts).1.matched =
      (tickLoop st.filters ts tokens st.matched st.history seen).1 ∧
    (tracking_tick st seen tokens ts).1.history =
      (tickLoop st.filters ts tokens st.matched st.history seen).2.1 := by
  unfold tracking_tick
  rcases hp : tickLoop st.filters ts tokens st.matched st.history seen
    with ⟨m, hh, s2, nm⟩
  simp

/-- C1 fails on the code: a Signal-Feed record without a ca_address field
transforms into a token whose address is the empty string, and when it
matches a believe filter process_new_tokens appends it to the global matched
list and to the history, so an entry without a non-empty address is
persisted. -/
theorem C1_counterexample :
    (believeToken c1GhostRaw).address = some "" ∧
    (process_new_tokens ⟨[c1BelieveFilter], [], []⟩
        [believeToken c1GhostRaw] 0).1.matched =
      [believeToken c1GhostRaw] ∧
    (process_new_tokens ⟨[c1BelieveFilter], [], []⟩
        [believeToken c1GhostRaw] 0).1.history.map (fun e => e.token) =
      [believeToken c1GhostRaw] ∧
    addrNonEmpty (believeToken c1GhostRaw) = false := by
  decide

/-- C1 amended: the Primary-Feed transform only emits tokens with a
non-empty address, and both recording paths preserve the non-empty-address
invariant for batches all of whose tokens carry non-empty addresses; the
recording paths themselves perform no address filtering, so the original
claim holds only for Primary-Feed batches, not for Signal-Feed tokens with
an empty ca_address. -/
theorem C1_amended_nonempty_addresses (items : List RawItem) (st : UserState)
    (tokens : List Token) (seen : List String) (ts : Nat)
    (hbatch : ∀ t ∈ tokens, addrNonEmpty t = true)
    (hinv : stateAddrInv st) :
    (∀ t ∈ processData items, addrNonEmpty t = true) ∧
    stateAddrInv (process_new_tokens st tokens ts).1 ∧
    stateAddrInv (tracking_tick st seen tokens ts).1 := by
  obtain ⟨hm, hh⟩ := hinv
  refine ⟨?_, ?_, ?_⟩
  · intro t ht
    simp only [processData, List.mem_filterMap] at ht
    obtain ⟨it, _, hit⟩ := ht
    simp only [processItem] at hit
    split_ifs at hit with h1 h2
    · obtain rfl : _ = t := Option.some.inj hit
      simpa [addrNonEmpty] using h2
  · by_cases hguard : (tokens.isEmpty || st.filters.isEmpty) = true
    · unfold process_new_tokens
      rw [if_pos hguard]
      exact ⟨hm, hh⟩
    · obtain ⟨he1, he2, _⟩ := process_new_tokens_eq st tokens ts
        (by simpa using hguard)
      obtain ⟨hsub1, hsub2⟩ :=
        pntLoop_mem st.filters (existingAddresses st.matched) ts tokens
      constructor
      · intro t ht
        rw [he1] at ht
        rcases List.mem_append.mp ht with ht | ht
        · exact hm t ht
        · exact hbatch t (hsub1 t ht)
      · intro e he
        rw [he2] at he
        rcases List.mem_append.mp he with he | he
        · exact hh e he
        · exact hbatch e.token (hsub2 e he)
  · obtain ⟨he1, he2⟩ := tracking_tick_eq st seen tokens ts
    obtain ⟨hsub1, hsub2⟩ := tickLoop_mem st.filters ts tokens st.matched
      st.history seen
    constructor
    · intro t ht
      rw [he1] at ht
      rcases hsub1 t ht with ht2 | ht2
      · exact hm t ht2
      · exact hbatch t ht2
    · intro e he
      rw [he2] at he
      rcases hsub2 e he with he2b | he2b
      · exact hh e he2b
      · exact hbatch e.token he2b

/-- Witness for the amended C1: a batch with one non-empty-address token
processed against an empty state. -/
theorem C1_amended_nonempty_addresses_witness :
    (∀ t ∈ ([c2Token] : List Token), addrNonEmpty t = true) ∧
    ((∀ t ∈ ([] : List Token), addrNonEmpty t = true) ∧
      (∀ e ∈ ([] : List MatchHistoryEntry), addrNonEmpty e.token = true)) ∧
    ((∀ t ∈ processData [c3BadItem], addrNonEmpty t = true) ∧
      stateAddrInv
        (process_new_tokens ⟨[c2Filter], [], []⟩ [c2Token] 3).1 ∧
      stateAddrInv
        (tracking_tick ⟨[c2Filter], [], []⟩ [] [c2Token] 3).1) :=
  ⟨by decide, ⟨by simp, by simp⟩,
   C1_amended_nonempty_addresses [c3BadItem] ⟨[c2Filter], [], []⟩ [c2Token]
     [] 3 (by decide) ⟨by simp, by simp⟩⟩

/-- Tokens whose address is already among the existing addresses are never
appended by the process_new_tokens loop: the appended lists contain no entry
carrying such an address. -/
theorem pntLoop_no_existing (filters : List WatchlistFilter)
    (existing : List String) (ts : Nat) (a : String)
    (hmem : existing.contains a = true) :
    ∀ tokens : List Token,
      ((pntLoop filters existing ts tokens).1.filter
        (fun t => t.address == some a)) = [] ∧
      ((pntLoop filters existing ts tokens).2.1.filter
        (fun e => e.token.address == some a)) = [] := by
  intro tokens
  induction tokens with
  | nil => simp [pntLoop]
  | cons t rest ih =>
    obtain ⟨ih1, ih2⟩ := ih
    rcases hp : pntLoop filters existing ts rest with ⟨m, hh, nm⟩
    rw [hp] at ih1 ih2
    simp only [pntLoop, hp]
    by_cases hskip : (match t.address with
        | some a2 => existing.contains a2
        | none => false) = true
    · rw [if_pos hskip]
      exact ⟨ih1, ih2⟩
    · rw [if_neg hskip]
      have haddr : (t.address == some a) = false := by
        rcases hta : t.address with _ | b
        · rfl
        · rw [hta] at hskip
          simp only at hskip
          by_cases hba : b = a
          · subst hba
            exact absurd hmem hskip
          · simp [hba]
      rcases hc : check_token_match t filters with _ | f
      · simp only [hc]
        exact ⟨ih1, ih2⟩
      · simp only [hc]
        constructor
        · simp [List.filter_cons, haddr, ih1]
        · simp [List.filter_cons, haddr, ih2]

/-- The per-tick recording loop preserves pairwise distinctness of present
addresses in the matched list: a token is appended only after the
is_new_globally scan finds no same-address entry. -/
theorem tickLoop_distinct (filters : List WatchlistFilter) (ts : Nat) :
    ∀ (tokens matched : List Token) (history : List MatchHistoryEntry)
      (seen : List String),
      DistinctAddrs matched →
      DistinctAddrs (tickLoop filters ts tokens matched history seen).1 := by
  intro tokens
  induction tokens with
  | nil =>
    intro matched history seen h
    simpa [tickLoop] using h
  | cons t rest ih =>
    intro matched history seen hdist
    by_cases hskip : (match t.address with
        | some a => seen.contains a
        | none => false) = true
    · have hred : tickLoop filters ts (t :: rest) matched history seen =
          tickLoop filters ts rest matched history seen := by
        simp only [tickLoop]
        rw [if_pos hskip]
      rw [hred]
      exact ih matched history seen hdist
    · rcases hc : check_token_match t filters with _ | f
      · have hred : tickLoop filters ts (t :: rest) matched history seen =
            tickLoop filters ts rest matched history seen := by
          simp only [tickLoop]
          rw [if_neg hskip, hc]
        rw [hred]
        exact ih matched history seen hdist
      · by_cases hnew : matched.any (fun et => sameAddress et t) = true
        · have hred :
              (tickLoop filters ts (t :: rest) matched history seen).1 =
              (tickLoop filters ts rest matched history
                (match t.address with
                  | some a => seenInsert a seen
                  | none => seen)).1 := by
            simp only [tickLoop]
            rw [if_neg hskip, hc]
            simp [hnew]
          rw [hred]
          exact ih matched history _ hdist
        · have hred :
              (tickLoop filters ts (t :: rest) matched history seen).1 =
              (tickLoop filters ts rest (matched ++ [t])
                (history ++ [⟨t, ts, f⟩])
                (match t.address with
                  | some a => seenInsert a seen
                  | none => seen)).1 := by
            simp only [tickLoop]
            rw [if_neg hskip, hc]
            simp [hnew]
          rw [hred]
          apply ih
          have hall : ∀ et ∈ matched, sameAddress et t = false := by
            have hfalse : matched.any (fun et => sameAddress et t) = false :=
              Bool.not_eq_true _ |>.mp hnew
            intro et het
            exact Bool.not_eq_true _ |>.mp (List.any_eq_false.mp hfalse et het)
          rw [DistinctAddrs, List.pairwise_append]
          refine ⟨hdist, List.pairwise_singleton _ _, ?_⟩
          intro s hs u hu x y hsx huy
          simp only [List.mem_singleton] at hu
          subst hu
          have hsa := hall s hs
          rw [sameAddress, hsx, huy] at hsa
          intro heq
          subst heq
          simp at hsa

/-- C2 fails on the code: two tokens with the same address in one candidate
batch are both appended by process_new_tokens, because the existing-address
set is computed once at entry and never updated during the batch, leaving
two matched entries and two history records for that address. -/
theorem C2_counterexample :
    countAddr (process_new_tokens ⟨[c2Filter], [], []⟩ [c2Token, c2Token]
      7).1.matched "pumpaddr111" = 2 ∧
    countAddrHist (process_new_tokens ⟨[c2Filter], [], []⟩
      [c2Token, c2Token] 7).1.history "pumpaddr111" = 2 := by
  decide

/-- C2 amended: recording is idempotent across successive calls (an address
already present in the global matched list gains no further matched entry or
history record from any later batch), and the tracking-task tick keeps
present addresses pairwise distinct within its own batch; only two
same-address tokens inside one process_new_tokens batch are double
recorded. -/
theorem C2_amended_address_dedup (st : UserState) (tokens : List Token)
    (ts : Nat) (a : String) (seen : List String)
    (hmem : (existingAddresses st.matched).contains a = true)
    (hdist : DistinctAddrs st.matched) :
    countAddr (process_new_tokens st tokens ts).1.matched a =
      countAddr st.matched a ∧
    countAddrHist (process_new_tokens st tokens ts).1.history a =
      countAddrHist st.history a ∧
    DistinctAddrs (tracking_tick st seen tokens ts).1.matched := by
  refine ⟨?_, ?_, ?_⟩
  · by_cases hguard : (tokens.isEmpty || st.filters.isEmpty) = true
    · unfold process_new_tokens
      rw [if_pos hguard]
    · obtain ⟨he1, _, _⟩ := process_new_tokens_eq st tokens ts
        (by simpa using hguard)
      rw [he1, countAddr, List.filter_append, List.length_append,
        (pntLoop_no_existing st.filters _ ts a hmem tokens).1]
      simp [countAddr]
  · by_cases hguard : (tokens.isEmpty || st.filters.isEmpty) = true
    · unfold process_new_tokens
      rw [if_pos hguard]
    · obtain ⟨_, he2, _⟩ := process_new_tokens_eq st tokens ts
        (by simpa using hguard)
      rw [he2, countAddrHist, List.filter_append, List.length_append,
        (pntLoop_no_existing st.filters _ ts a hmem tokens).2]
      simp [countAddrHist]
  · rw [(tracking_tick_eq st seen tokens ts).1]
    exact tickLoop_distinct st.filters ts tokens st.matched st.history seen
      hdist

/-- Witness for the amended C2: the pump token is already recorded, so a
batch containing it again changes neither count, and a tick from that state
keeps addresses distinct. -/
theorem C2_amended_address_dedup_witness :
    (existingAddresses [c2Token]).contains "pumpaddr111" = true ∧
    DistinctAddrs [c2Token] ∧
    (countAddr (process_new_tokens ⟨[c2Filter], [c2Token], []⟩ [c2Token]
        8).1.matched "pumpaddr111" =
      countAddr [c2Token] "pumpaddr111" ∧
    countAddrHist (process_new_tokens ⟨[c2Filter], [c2Token], []⟩ [c2Token]
        8).1.history "pumpaddr111" =
      countAddrHist [] "pumpaddr111" ∧
    DistinctAddrs
      (tracking_tick ⟨[c2Filter], [c2Token], []⟩ [] [c2Token]
        8).1.matched) :=
  ⟨by decide, by simp [DistinctAddrs],
   C2_amended_address_dedup ⟨[c2Filter], [c2Token], []⟩ [c2Token] 8
     "pumpaddr111" [] (by decide) (by simp [DistinctAddrs])⟩

end Solvirx
